import Mathlib

set_option maxRecDepth 100000

/-!
# Verification of the E-VAT Receipt Lottery core

Shallow embedding of the lottery prototype's core logic:
* the QR receipt-code parser (`QRParser` in `frontend/js/scanner.js`),
* the demo-mode redemption transaction (`API._demoScan` and its helpers in
  `frontend/js/api.js`),
* the draw engine (`API._determinePrize`), the commitment generator
  (`API._generateHash`), and the demo leaderboard (`API._demoLeaderboard`),
* the configuration constants from `frontend/js/config.js`.

JavaScript strings are modelled as Lean `String`; the `localStorage`-backed
mutable store is modelled by an explicit `DemoState` record threaded through
the operations; `Math.random()` draws are passed in as explicit arguments;
JavaScript `null`/`undefined` results are modelled with `Option`.
-/

/-! ## Configuration (`frontend/js/config.js`) -/

/-- `CONFIG.WIN_PERCENTAGE` — 10% chance to win. -/
def WIN_PERCENTAGE : ℚ := 10

/-- `CONFIG.PRIZES` — prize tiers with percentage shares of wins, in
insertion order (JavaScript object property insertion order, which
`Object.entries` preserves for string keys). -/
def PRIZES : List (String × ℚ) :=
  [("GH₵5 Airtime", 70), ("GH₵10 Airtime", 25), ("GH₵50 Airtime", 5)]

/-- `CONFIG.MAX_SCANS_PER_HOUR` — rate-limiting cap. -/
def MAX_SCANS_PER_HOUR : Nat := 10

/-! ## Character helpers for the regex tests -/

/-- `\d` — an ASCII decimal digit. -/
def isDigitChar (c : Char) : Bool := decide ('0' ≤ c) && decide (c ≤ '9')

/-- `[A-Z0-9]` — an uppercase ASCII letter or digit. -/
def isUpperOrDigit (c : Char) : Bool :=
  (decide ('A' ≤ c) && decide (c ≤ 'Z')) || isDigitChar c

/-- `CONFIG.QR_PATTERN` and `QRParser.isV1Format`: the regex
`^GRA-VAT-\d{4}-[A-Z0-9]{4}-[A-Z0-9]{4}-[A-Z0-9]{4}$`, decided by direct
pattern match on the character list. -/
def graVatPattern (s : String) : Bool :=
  match s.data with
  | 'G' :: 'R' :: 'A' :: '-' :: 'V' :: 'A' :: 'T' :: '-' ::
    y1 :: y2 :: y3 :: y4 :: '-' ::
    a1 :: a2 :: a3 :: a4 :: '-' ::
    b1 :: b2 :: b3 :: b4 :: '-' ::
    c1 :: c2 :: c3 :: c4 :: [] =>
      isDigitChar y1 && isDigitChar y2 && isDigitChar y3 && isDigitChar y4 &&
      isUpperOrDigit a1 && isUpperOrDigit a2 && isUpperOrDigit a3 && isUpperOrDigit a4 &&
      isUpperOrDigit b1 && isUpperOrDigit b2 && isUpperOrDigit b3 && isUpperOrDigit b4 &&
      isUpperOrDigit c1 && isUpperOrDigit c2 && isUpperOrDigit c3 && isUpperOrDigit c4
  | _ => false

/-- ASCII lowercasing of one character, modelling the effect of the `i` regex
flag on the ASCII letters appearing in the v2 URL pattern. -/
def charToLower (c : Char) : Char :=
  if decide ('A' ≤ c) && decide (c ≤ 'Z') then Char.ofNat (c.toNat + 32) else c

/-- `pat` is a prefix of `l` (both as character lists). -/
def listStartsWith : List Char → List Char → Bool
  | [], _ => true
  | _ :: _, [] => false
  | a :: as, b :: bs => decide (a = b) && listStartsWith as bs

namespace QRParser

/-- `QRParser.isV2Format`: the case-insensitive regex
`^https?:\/\/(evat\.gra\.gov\.gh|vsdc\.vat-gh\.com)\/verify\?`, decided by
lowercasing the input and testing the four possible literal prefixes. -/
def isV2Format (s : String) : Bool :=
  let t := s.data.map charToLower
  listStartsWith "https://evat.gra.gov.gh/verify?".data t ||
  listStartsWith "http://evat.gra.gov.gh/verify?".data t ||
  listStartsWith "https://vsdc.vat-gh.com/verify?".data t ||
  listStartsWith "http://vsdc.vat-gh.com/verify?".data t

/-- `QRParser.isV1Format` — same regex as `CONFIG.QR_PATTERN`. -/
def isV1Format (s : String) : Bool := graVatPattern s

/-! ### Query-string extraction (`new URL(...).searchParams`)

`parseV2URL` reads the five query parameters through the WHATWG `URL` API.
For strings matching the v2 prefix the query is the text between the first
`?` and the first subsequent `#`; `searchParams.get(k)` splits it on `&`,
skips empty segments, splits each segment at its first `=`, turns `+` into a
space, percent-decodes, and returns the first value bound to `k` (or `null`).
Percent-decoding is modelled byte-for-byte on ASCII code points. -/

/-- The characters of the query component: after the first `?`, before the
first following `#`. -/
def queryChars (s : String) : List Char :=
  match s.data.dropWhile (fun c => !decide (c = '?')) with
  | [] => []
  | _ :: rest => rest.takeWhile (fun c => !decide (c = '#'))

/-- Split a character list on a separator character. -/
def splitOnChar (sep : Char) : List Char → List (List Char)
  | [] => [[]]
  | c :: rest =>
    if c = sep then [] :: splitOnChar sep rest
    else
      match splitOnChar sep rest with
      | [] => [[c]]
      | seg :: segs => (c :: seg) :: segs

/-- Value of a hexadecimal digit character, if it is one. -/
def hexVal (c : Char) : Option Nat :=
  if decide ('0' ≤ c) && decide (c ≤ '9') then some (c.toNat - 48)
  else if decide ('a' ≤ c) && decide (c ≤ 'f') then some (c.toNat - 87)
  else if decide ('A' ≤ c) && decide (c ≤ 'F') then some (c.toNat - 55)
  else none

/-- Percent-decode: `%XY` with two hex digits becomes the character with that
code; a `%` not followed by two hex digits is kept literally. -/
def percentDecode : List Char → List Char
  | [] => []
  | '%' :: a :: b :: rest =>
    match hexVal a, hexVal b with
    | some x, some y => Char.ofNat (16 * x + y) :: percentDecode rest
    | _, _ => '%' :: percentDecode (a :: b :: rest)
  | c :: rest => c :: percentDecode rest

/-- Decode one name or value component: `+` to space, then percent-decode. -/
def decodeComponent (l : List Char) : String :=
  String.mk (percentDecode (l.map (fun c => if c = '+' then ' ' else c)))

/-- Split one `name=value` segment at its first `=` (a segment without `=`
binds the whole segment to the empty value). -/
def pairOfSegment (seg : List Char) : String × String :=
  let name := seg.takeWhile (fun c => !decide (c = '='))
  match seg.dropWhile (fun c => !decide (c = '=')) with
  | [] => (decodeComponent name, "")
  | _ :: v => (decodeComponent name, decodeComponent v)

/-- All `name=value` pairs of the query component of `s`, in order. -/
def queryPairs (s : String) : List (String × String) :=
  ((splitOnChar '&' (queryChars s)).filter (fun seg => !seg.isEmpty)).map pairOfSegment

/-- `searchParams.get(k)`: the first value bound to `k`, or `null`. -/
def getParam (pairs : List (String × String)) (k : String) : Option String :=
  (pairs.find? (fun pr => pr.1 == k)).map Prod.snd

/-- `QRParser.formatTimestamp`: renders a compact `YYYYMMDDHHmmss` timestamp,
or `"Unknown"` when the argument is `null` or shorter than 14 characters. -/
def formatTimestamp : Option String → String
  | none => "Unknown"
  | some t =>
    if t.data.length < 14 then "Unknown"
    else
      String.mk (t.data.take 4) ++ "/" ++ String.mk ((t.data.drop 4).take 2) ++ "/" ++
      String.mk ((t.data.drop 6).take 2) ++ " " ++ String.mk ((t.data.drop 8).take 2) ++ ":" ++
      String.mk ((t.data.drop 10).take 2) ++ ":" ++ String.mk ((t.data.drop 12).take 2)

/-- The object returned by `QRParser.parseV2URL`: the five query parameters
(each `null` when absent) plus the formatted timestamp. -/
structure V2Data where
  sdcId : Option String
  rcptNum : Option String
  internalData : Option String
  ts : Option String
  sig : Option String
  timestampFormatted : String
deriving DecidableEq, Repr

/-- `QRParser.parseV2URL`: extract the five query parameters. The model
always succeeds, because the `new URL` constructor succeeds on every string
matching the v2 prefix — the prefix pins a valid scheme, host and path, and
the WHATWG query state accepts any suffix — so the `catch` branch returning
`null` is unreachable through `parse`. -/
def parseV2URLModel (s : String) : Option V2Data :=
  let ps := queryPairs s
  some { sdcId := getParam ps "sdc", rcptNum := getParam ps "rcpt",
         internalData := getParam ps "data", ts := getParam ps "ts",
         sig := getParam ps "sig",
         timestampFormatted := formatTimestamp (getParam ps "ts") }

/-- The result object of `QRParser.parse`. `data` is `null` (`none`), a v2
parameter record (`Sum.inl`), or the v1 object `{code}` (`Sum.inr`). -/
structure Parsed where
  version : String
  valid : Bool
  data : Option (V2Data ⊕ String)
  raw : String
  error : Option String
deriving DecidableEq, Repr

/-- `QRParser.parse` with the query-extraction step passed as a parameter
`urlP` (instantiated with `parseV2URLModel` below); the v2 branch sets
`valid := true` and stores whatever `urlP` produced. -/
def parseWith (urlP : String → Option V2Data) (s : String) : Parsed :=
  if isV2Format s then
    { version := "v2", valid := true, data := (urlP s).map Sum.inl, raw := s, error := none }
  else if isV1Format s then
    { version := "v1", valid := true, data := some (Sum.inr s), raw := s, error := none }
  else
    { version := "unknown", valid := false, data := none, raw := s,
      error := some "Unrecognized QR code format" }

/-- `QRParser.parse`, with the concrete query-extraction model standing in
for `new URL` (which succeeds on every string matching the v2 prefix). -/
def parse (s : String) : Parsed := parseWith parseV2URLModel s

/-- Outcome of `QRParser.getUniqueId`: a returned value (`val (some _)` a
string, `val none` the JavaScript `null`/`undefined`), or a thrown
`TypeError` from reading a property of a `null` `data`. -/
inductive UniqueIdResult where
  | val (v : Option String)
  | typeError
deriving DecidableEq, Repr

/-- `QRParser.getUniqueId`: the `rcpt` parameter for v2, the full token for
v1, `null` otherwise. Reading `.rcptNum`/`.code` off a `null` `data` throws a
`TypeError`; reading an absent property yields `undefined` (`val none`). -/
def getUniqueId (p : Parsed) : UniqueIdResult :=
  if p.version = "v2" then
    match p.data with
    | some (Sum.inl d) => .val d.rcptNum
    | some (Sum.inr _) => .val none
    | none => .typeError
  else if p.version = "v1" then
    match p.data with
    | some (Sum.inr c) => .val (some c)
    | some (Sum.inl _) => .val none
    | none => .typeError
  else .val none

end QRParser

/-! ## Commitment generator (`API._generateHash`) -/

/-- JavaScript `ToInt32`: wrap an integer into `[-2^31, 2^31)`. -/
def toInt32 (x : Int) : Int :=
  if x % (2 ^ 32 : Int) ≥ 2 ^ 31 then x % (2 ^ 32 : Int) - 2 ^ 32
  else x % (2 ^ 32 : Int)

/-- One iteration of the rolling hash:
`hash = ((hash << 5) - hash) + charCode; hash = hash & hash`. The shift
returns a 32-bit value, the subtraction and addition are exact in doubles,
and `& hash` truncates back to 32 bits. -/
def hashStep (h : Int) (c : Nat) : Int := toInt32 (toInt32 (h * 32) - h + (c : Int))

/-- The signed 32-bit accumulator after folding the hash step over the input
characters (`charCodeAt` agrees with the Unicode scalar value for the
basic-multilingual-plane characters used by this application). -/
def hashOf (input : String) : Int :=
  input.data.foldl (fun a c => hashStep a c.toNat) 0

/-- One lowercase hexadecimal digit character. -/
def hexDigitChar (n : Nat) : Char :=
  if n < 10 then Char.ofNat (48 + n) else Char.ofNat (87 + n)

/-- Fuel-driven digit accumulator for `Math.abs(hash).toString(16)`. -/
def toHexAux : Nat → Nat → List Char → List Char
  | 0, _, acc => acc
  | Nat.succ fuel, n, acc =>
    if n = 0 then acc else toHexAux fuel (n / 16) (hexDigitChar (n % 16) :: acc)

/-- `Math.abs(hash).toString(16)`: lowercase hex digits, `"0"` for zero. -/
def toHexList (n : Nat) : List Char :=
  if n = 0 then ['0'] else toHexAux n n []

/-- `API._generateHash`: the rolling hash rendered as lowercase hex,
left-padded with `'0'` to 64 characters and truncated to 64
(`(padding + hex).substring(0, 64)`). -/
def generateHash (input : String) : String :=
  let hex := toHexList (hashOf input).natAbs
  String.mk ((List.replicate (64 - hex.length) '0' ++ hex).take 64)

/-- The commitment of §4.4: `API._demoScan` computes the transaction hash as
`_generateHash(qrCode + phone + timestamp + randomSeed)`. -/
def commit (receiptUniqueId participantId timestamp randomSeed : String) : String :=
  generateHash (receiptUniqueId ++ participantId ++ timestamp ++ randomSeed)

/-- A lowercase hexadecimal digit character. -/
def isHexDigitChar (c : Char) : Bool :=
  (decide ('0' ≤ c) && decide (c ≤ '9')) || (decide ('a' ≤ c) && decide (c ≤ 'f'))

/-! ## Draw engine (`API._determinePrize`) -/

/-- The win draw of `API._demoScan`: `random < CONFIG.WIN_PERCENTAGE`. -/
def isWinDraw (r : ℚ) : Bool := decide (r < WIN_PERCENTAGE)

/-- The accumulation loop of `API._determinePrize`, carrying the running
cumulative share `c`. -/
def determinePrizeAux : List (String × ℚ) → ℚ → ℚ → Option String
  | [], _, _ => none
  | (p, pct) :: rest, c, r2 =>
    if r2 < c + pct then some p else determinePrizeAux rest (c + pct) r2

/-- `API._determinePrize` with the second draw `r2` passed explicitly: walk
the prize table accumulating shares; the first tier whose cumulative share
exceeds `r2` wins; otherwise fall back to `Object.keys(CONFIG.PRIZES)[0]`
(`none` for an empty table, where JavaScript yields `undefined`). -/
def determinePrize (prizes : List (String × ℚ)) (r2 : ℚ) : Option String :=
  match determinePrizeAux prizes 0 r2 with
  | some p => some p
  | none => prizes.head?.map Prod.fst

/-- Each tier with its cumulative share, starting the accumulation at `c`. -/
def cumulativeFrom (c : ℚ) : List (String × ℚ) → List (String × ℚ)
  | [] => []
  | (p, pct) :: rest => (p, c + pct) :: cumulativeFrom (c + pct) rest

/-- Modelled from the spec's words (§4.3), for comparison with
`determinePrize`: "the first tier whose cumulative share exceeds `r2`". -/
def specFirstTierExceeding (prizes : List (String × ℚ)) (r2 : ℚ) : Option String :=
  ((cumulativeFrom 0 prizes).find? (fun pr => decide (r2 < pr.2))).map Prod.fst

/-! ## Redemption ledger state (`localStorage`-backed demo store)

The demo keeps its state in four `localStorage` collections. A scan-history
entry stores the fields pushed by `API._storeScan`; an audit-log entry stores
the fields unshifted there on a win; a leaderboard entry stores per-user
aggregates. Timestamps are the ISO strings produced by the caller; the
conversion `new Date(string).getTime()` used by the rate limiter is
abstracted as an explicit `dateMs` argument. -/

/-- One entry of `evat_scan_history` (see `API._storeScan`). -/
structure ScanEntry where
  qrCode : String
  phone : String
  timestamp : String
  result : String
  prize : Option String
deriving DecidableEq, Repr

/-- One entry of `evat_audit_log` (see `API._storeScan`). -/
structure AuditEntry where
  timestamp : String
  phone : String
  qrCode : String
  prize : Option String
  transactionHash : String
  randomSeed : String
deriving DecidableEq, Repr

/-- One entry of `evat_leaderboard`. -/
structure LBEntry where
  phone : String
  scans : Nat
  wins : Nat
deriving DecidableEq, Repr

/-- The demo-mode store: `evat_scan_history`, `scanned_codes`,
`evat_audit_log`, `evat_leaderboard`. -/
structure DemoState where
  scanHistory : List ScanEntry
  scannedCodes : List String
  auditLog : List AuditEntry
  leaderboard : List LBEntry
deriving DecidableEq, Repr

/-- The store right after "Reset All Demo Data" (`API.clearDemoData`). -/
def emptyState : DemoState := ⟨[], [], [], []⟩

/-- The full scan record passed by `API._demoScan` to `API._storeScan`. -/
structure FullScan where
  qrCode : String
  phone : String
  timestamp : String
  result : String
  prize : Option String
  transactionHash : String
  randomSeed : String
deriving DecidableEq, Repr

/-- The duplicate check of `API._demoScan`: `scanHistory.includes(qrCode)`.
The history list holds entry *objects*, so `Array.includes` compares the
string `qrCode` with each object under SameValueZero equality, which is
false for every element; the comparison is kept element-wise to mirror the
source. -/
def scanHistoryIncludes (history : List ScanEntry) (_qrCode : String) : Bool :=
  history.any (fun _entry => false)

/-- `API._getRecentScans`: entries of the scan history for this phone whose
timestamp is strictly newer than one hour before now (`dateMs` models
`new Date(s).getTime()`, `nowMs` models `Date.now()`). -/
def getRecentScans (dateMs : String → Int) (nowMs : Int) (phone : String)
    (st : DemoState) : Nat :=
  (st.scanHistory.filter
    (fun e => e.phone == phone && decide (dateMs e.timestamp > nowMs - 3600000))).length

/-- `API._getUserStats`: `(totalScans, totalWins)` for a phone, recomputed
from the scan history. -/
def getUserStats (phone : String) (st : DemoState) : Nat × Nat :=
  let userScans := st.scanHistory.filter (fun e => e.phone == phone)
  (userScans.length, (userScans.filter (fun e => e.result == "WIN")).length)

/-- The leaderboard update inside `API._updateLeaderboard` for a user already
present: bump the first entry with this phone (`Array.find` returns the
first match). -/
def bumpLeaderboard (phone : String) (isWin : Bool) : List LBEntry → List LBEntry
  | [] => []
  | u :: rest =>
    if u.phone == phone then
      { u with scans := u.scans + 1, wins := if isWin then u.wins + 1 else u.wins } :: rest
    else u :: bumpLeaderboard phone isWin rest

/-- `API._updateLeaderboard`: find-or-create the user's entry, then increment
its scan count and, on a win, its win count. -/
def updateLeaderboard (phone : String) (isWin : Bool) (lb : List LBEntry) : List LBEntry :=
  if lb.any (fun u => u.phone == phone) then bumpLeaderboard phone isWin lb
  else lb ++ [⟨phone, 1, if isWin then 1 else 0⟩]

/-- `API._storeScan`: push onto the scan history, append the raw code to
`scanned_codes`, unshift a win onto the audit log, update the leaderboard. -/
def storeScan (scan : FullScan) (st : DemoState) : DemoState :=
  { scanHistory := st.scanHistory ++
      [⟨scan.qrCode, scan.phone, scan.timestamp, scan.result, scan.prize⟩],
    scannedCodes := st.scannedCodes ++ [scan.qrCode],
    auditLog :=
      if scan.result == "WIN" then
        ⟨scan.timestamp, scan.phone, scan.qrCode, scan.prize, scan.transactionHash,
         scan.randomSeed⟩ :: st.auditLog
      else st.auditLog,
    leaderboard := updateLeaderboard scan.phone (scan.result == "WIN") st.leaderboard }

/-- The result object of `API._demoScan`: an error result
(`success: false` with `error` and `message`), or a success result with
outcome, prize, hash, message and updated totals. -/
inductive ScanResult where
  | failure (error : String) (message : String)
  | success (result : String) (prize : Option String) (transactionHash : String)
      (message : String) (totalScans : Nat) (totalWins : Nat)
deriving DecidableEq, Repr

/-- The invalid-format message of `API._demoScan`. -/
def invalidFormatMsg : String :=
  "This doesn\x27t look like a valid GRA VAT receipt QR code."

/-- The duplicate-scan message of `API._demoScan`. -/
def duplicateMsg : String := "This receipt has already been scanned!"

/-- The rate-limit message of `API._demoScan`, interpolating the configured
per-hour cap. -/
def rateLimitMsg : String :=
  "You\x27ve reached the limit of " ++ toString MAX_SCANS_PER_HOUR ++
  " scans per hour. Try again later!"

/-- The win message, interpolating the prize (JavaScript renders an
`undefined` prize as the text `undefined`). -/
def winMsg (prize : Option String) : String :=
  "Congratulations! You won " ++ prize.getD "undefined" ++ "!"

/-- The lose message of `API._demoScan`. -/
def loseMsg : String := "No win this time - keep scanning for more chances!"

/-- `API._demoScan`, the demo-mode redemption transaction: validate the
format against `CONFIG.QR_PATTERN`, check for duplicates, check the rate
limit, draw win/lose with `r` and the prize tier with `r2` (the two
`Math.random() * 100` draws), compute the transaction hash over
`qrCode + phone + timestamp + randomSeed`, store the scan, and report the
updated stats. -/
def demoScan (dateMs : String → Int) (nowMs : Int) (qrCode phone timestamp : String)
    (r r2 : ℚ) (randomSeed : String) (st : DemoState) : ScanResult × DemoState :=
  if !graVatPattern qrCode then
    (ScanResult.failure "Invalid QR code format" invalidFormatMsg, st)
  else if scanHistoryIncludes st.scanHistory qrCode then
    (ScanResult.failure "Duplicate scan" duplicateMsg, st)
  else if getRecentScans dateMs nowMs phone st ≥ MAX_SCANS_PER_HOUR then
    (ScanResult.failure "Rate limited" rateLimitMsg, st)
  else
    let isWin := isWinDraw r
    let prize := if isWin then determinePrize PRIZES r2 else none
    let transactionHash := generateHash (qrCode ++ phone ++ timestamp ++ randomSeed)
    let resultStr := if isWin then "WIN" else "LOSE"
    let st1 := storeScan ⟨qrCode, phone, timestamp, resultStr, prize, transactionHash,
      randomSeed⟩ st
    let stats := getUserStats phone st1
    (ScanResult.success resultStr prize transactionHash
      (if isWin then winMsg prize else loseMsg) stats.1 stats.2, st1)

/-- Whether a scan result is the `success: false` shape. -/
def isFailureResult : ScanResult → Bool
  | .failure _ _ => true
  | .success _ _ _ _ _ _ => false

/-- Whether a scan result is the rate-limit error. -/
def isRateLimitedResult : ScanResult → Bool
  | .failure e _ => e == "Rate limited"
  | .success _ _ _ _ _ _ => false

/-- Whether a scan result is the duplicate error. -/
def isDuplicateResult : ScanResult → Bool
  | .failure e _ => e == "Duplicate scan"
  | .success _ _ _ _ _ _ => false

/-! ## Leaderboard (`API._demoLeaderboard` and helpers) -/

/-- The five hard-coded demo users of `API._demoLeaderboard`. -/
def demoUsers : List LBEntry :=
  [⟨"0241234567", 45, 5⟩, ⟨"0551234567", 38, 3⟩, ⟨"0271234567", 32, 4⟩,
   ⟨"0201234567", 28, 2⟩, ⟨"0541234567", 22, 3⟩]

/-- A badge (`API._getBadge` returns `{name, emoji}` or `null`). -/
structure Badge where
  name : String
  emoji : String
deriving DecidableEq, Repr

/-- `API._getBadge`: Gold at 50 scans, Silver at 25, Bronze at 10. -/
def getBadge (scans : Nat) : Option Badge :=
  if scans ≥ 50 then some ⟨"Gold", "🥇"⟩
  else if scans ≥ 25 then some ⟨"Silver", "🥈"⟩
  else if scans ≥ 10 then some ⟨"Bronze", "🥉"⟩
  else none

/-- `API._maskPhone`: keep the first three and last three characters, replace
the middle with `****`; short values pass through unchanged. -/
def maskPhone (phone : String) : String :=
  if phone.data.length < 7 then phone
  else
    String.mk (phone.data.take 3) ++ "****" ++
    String.mk (phone.data.drop (phone.data.length - 3))

/-- The demo-user seeding loop of `API._demoLeaderboard`: push each demo user
whose phone is not already on the board (the check runs against the board as
already extended by earlier pushes, as in the source's in-place loop). -/
def addDemoUsers (lb : List LBEntry) : List LBEntry :=
  demoUsers.foldl
    (fun acc u => if acc.any (fun v => v.phone == u.phone) then acc else acc ++ [u]) lb

/-- Overwrite the first entry carrying `phone` with the given stats
(`existingUser.scans = userStats.totalScans; existingUser.wins = ...`). -/
def setStats (phone : String) (scans wins : Nat) : List LBEntry → List LBEntry
  | [] => []
  | u :: rest =>
    if u.phone == phone then { u with scans := scans, wins := wins } :: rest
    else u :: setStats phone scans wins rest

/-- Insert an entry into a descending-by-scans list, after all entries with
at least as many scans (the stable position). -/
def insertByScans (u : LBEntry) : List LBEntry → List LBEntry
  | [] => [u]
  | v :: rest => if v.scans < u.scans then u :: v :: rest else v :: insertByScans u rest

/-- `leaderboard.sort((a, b) => b.scans - a.scans)`: stable descending sort
by scan count, modelled by left-to-right stable insertion. -/
def sortByScansDesc (l : List LBEntry) : List LBEntry :=
  l.foldl (fun acc u => insertByScans u acc) []

/-- `leaderboard.findIndex(u => u.phone === phone) + 1`, with the absent case
(`0`, rendered as `null` by `userRank || null`) as `none`. -/
def findRank (phone : String) (l : List LBEntry) : Option Nat :=
  (l.findIdx? (fun u => u.phone == phone)).map (· + 1)

/-- One row of the formatted leaderboard response. -/
structure LBOut where
  rank : Nat
  phoneMasked : String
  phone : String
  scans : Nat
  wins : Nat
  badge : Option Badge
deriving DecidableEq, Repr

/-- The `leaderboard.slice(0, 10).map((user, index) => ...)` formatting step,
carrying the zero-based index. -/
def rankEntries : Nat → List LBEntry → List LBOut
  | _, [] => []
  | i, u :: rest =>
    ⟨i + 1, maskPhone u.phone, u.phone, u.scans, u.wins, getBadge u.scans⟩ ::
      rankEntries (i + 1) rest

/-- The full `API._demoLeaderboard` response. -/
structure LBResponse where
  leaderboard : List LBOut
  userRank : Option Nat
  userScans : Nat
  userWins : Nat
deriving DecidableEq, Repr

/-- `API._demoLeaderboard`: seed demo users onto boards with fewer than five
entries, splice in the querying user's live stats (append only when they have
scans), sort descending by scans, and format the top ten. The `period`
parameter is accepted but unused by the demo implementation. -/
def demoLeaderboard (phone : String) (st : DemoState) : LBResponse :=
  let lb0 := st.leaderboard
  let stats := getUserStats phone st
  let lb1 := if lb0.length < 5 then addDemoUsers lb0 else lb0
  let lb2 :=
    if lb1.any (fun u => u.phone == phone) then setStats phone stats.1 stats.2 lb1
    else if stats.1 > 0 then lb1 ++ [⟨phone, stats.1, stats.2⟩]
    else lb1
  let sorted := sortByScansDesc lb2
  { leaderboard := rankEntries 0 (sorted.take 10),
    userRank := findRank phone sorted,
    userScans := stats.1,
    userWins := stats.2 }

/-! ## Concrete sample data used by witnesses and counterexamples -/

/-- A date-parse model mapping every ISO timestamp to epoch `0`. -/
def dZero : String → Int := fun _ => 0

/-- A sample v1 receipt code (matches `CONFIG.QR_PATTERN`). -/
def c1Code : String := "GRA-VAT-2024-AAAA-BBBB-CCCC"

/-- The store after the sample code has been redeemed once from a fresh
store (a losing draw, `r = 50`). -/
def c1State1 : DemoState :=
  (demoScan dZero 0 c1Code "0241234567" "2024-01-01T00:00:00.000Z" 50 0 "seed1" emptyState).2

/-- A sample well-formed v2 signed-URL receipt code carrying all five query
parameters. -/
def v2Sample : String :=
  "https://evat.gra.gov.gh/verify?sdc=12345678&rcpt=AAAA-BBBB-CCCCC&data=DDDDDDDD-EEE-FFFF&ts=20240101120000&sig=GGGGHHHHIIIIJJJJ"

/-- A v2-prefixed URL whose query has no `rcpt` parameter. -/
def v2NoRcpt : String := "https://evat.gra.gov.gh/verify?sdc=123"

/-- The `i`-th scan-history entry of the rate-limit scenario: same
participant, distinct receipt codes. -/
def rlEntry (i : Nat) : ScanEntry :=
  ⟨"code" ++ toString i, "0241234567", "t" ++ toString i, "LOSE", none⟩

/-- A store in which participant `0241234567` has `n` recorded scans. -/
def rlState (n : Nat) : DemoState := ⟨(List.range n).map rlEntry, [], [], []⟩

/-! ## Commitment generator: bounds and digest shape -/

theorem toInt32_bounds (x : Int) : -(2 ^ 31) ≤ toInt32 x ∧ toInt32 x < 2 ^ 31 := by
  unfold toInt32
  have h0 : 0 ≤ x % (2 ^ 32 : Int) := Int.emod_nonneg x (by norm_num)
  have h1 : x % (2 ^ 32 : Int) < 2 ^ 32 := Int.emod_lt_of_pos x (by norm_num)
  constructor <;> split <;> omega

theorem hashStep_natAbs_le (h : Int) (c : Nat) : (hashStep h c).natAbs ≤ 2 ^ 31 := by
  have hb := toInt32_bounds (toInt32 (h * 32) - h + (c : Int))
  unfold hashStep
  omega

theorem foldl_hashStep_natAbs_le (l : List Char) (a : Int) (ha : a.natAbs ≤ 2 ^ 31) :
    (l.foldl (fun x c => hashStep x c.toNat) a).natAbs ≤ 2 ^ 31 := by
  induction l generalizing a with
  | nil => exact ha
  | cons c rest ih => exact ih _ (hashStep_natAbs_le a c.toNat)

theorem hashOf_natAbs_le (s : String) : (hashOf s).natAbs ≤ 2 ^ 31 :=
  foldl_hashStep_natAbs_le s.data 0 (by decide)

theorem toHexAux_length_le (fuel : Nat) :
    ∀ (n k : Nat) (acc : List Char), n < 16 ^ k →
      (toHexAux fuel n acc).length ≤ k + acc.length := by
  induction fuel with
  | zero => intro n k acc _; simp [toHexAux]
  | succ fuel ih =>
    intro n k acc hn
    unfold toHexAux
    split
    · exact Nat.le_add_left acc.length k
    · rename_i hn0
      match k with
      | 0 => simp at hn; omega
      | Nat.succ j =>
        have hdiv : n / 16 < 16 ^ j := by
          rw [Nat.div_lt_iff_lt_mul (by norm_num)]
          calc n < 16 ^ (j + 1) := hn
            _ = 16 ^ j * 16 := by rw [Nat.pow_succ]
        have := ih (n / 16) j (hexDigitChar (n % 16) :: acc) hdiv
        simp only [List.length_cons] at this
        omega

theorem toHexList_length_le (n : Nat) (h : n ≤ 2 ^ 31) : (toHexList n).length ≤ 8 := by
  unfold toHexList
  split
  · decide
  · have h16 : n < 16 ^ 8 := by omega
    simpa using toHexAux_length_le n n 8 [] h16

theorem hexDigitChar_isHex : ∀ m, m < 16 → isHexDigitChar (hexDigitChar m) = true := by
  decide

theorem toHexAux_all_hex (fuel : Nat) :
    ∀ (n : Nat) (acc : List Char), (∀ c ∈ acc, isHexDigitChar c = true) →
      ∀ c ∈ toHexAux fuel n acc, isHexDigitChar c = true := by
  induction fuel with
  | zero => intro n acc hacc; simpa [toHexAux] using hacc
  | succ fuel ih =>
    intro n acc hacc
    unfold toHexAux
    split
    · exact hacc
    · refine ih (n / 16) (hexDigitChar (n % 16) :: acc) ?_
      intro c hc
      rcases List.mem_cons.mp hc with h | h
      · subst h; exact hexDigitChar_isHex _ (Nat.mod_lt n (by norm_num))
      · exact hacc c h

theorem toHexList_all_hex (n : Nat) : ∀ c ∈ toHexList n, isHexDigitChar c = true := by
  unfold toHexList
  split
  · intro c hc; simp only [List.mem_singleton] at hc; subst hc; decide
  · exact toHexAux_all_hex n n [] (by simp)

theorem generateHash_length (input : String) : (generateHash input).length = 64 := by
  unfold generateHash
  have hlen : (toHexList (hashOf input).natAbs).length ≤ 8 :=
    toHexList_length_le _ (hashOf_natAbs_le input)
  have h64 : (List.replicate (64 - (toHexList (hashOf input).natAbs).length) '0' ++
      toHexList (hashOf input).natAbs).length = 64 := by
    rw [List.length_append, List.length_replicate]
    omega
  show (List.take 64 _).length = 64
  rw [List.take_of_length_le (by omega), h64]

theorem generateHash_all_hex (input : String) :
    (generateHash input).data.all isHexDigitChar = true := by
  unfold generateHash
  rw [List.all_eq_true]
  intro c hc
  have hc' := List.mem_of_mem_take hc
  rcases List.mem_append.mp hc' with h | h
  · rw [List.eq_of_mem_replicate h]; decide
  · exact toHexList_all_hex _ c h

/-- C7: `commit` always returns a 64-character string of lowercase
hexadecimal digits, computed as the rolling hash of the concatenation of the
four inputs. -/
theorem c7_commit_fixed_length_hex (r p t s : String) :
    (commit r p t s).length = 64 ∧ (commit r p t s).data.all isHexDigitChar = true ∧
    commit r p t s = generateHash (r ++ p ++ t ++ s) :=
  ⟨generateHash_length _, generateHash_all_hex _, rfl⟩

/-- C6 counterexample: changing only the first input from `"Aa"` to `"BB"`
(the other three inputs held fixed) leaves the commitment unchanged — the
32-bit rolling hash collides, refuting "changing any one input changes the
output". -/
theorem c6_counterexample :
    commit "Aa" "x" "y" "z" = commit "BB" "x" "y" "z" ∧ ("Aa" : String) ≠ "BB" := by
  decide

/-- C6 amended: `commit` is a pure function of the concatenation of its four
inputs — identical inputs (indeed, identical concatenations) always yield
identical output — but changing exactly one input does not always change the
output: the non-cryptographic hash has collisions. -/
theorem c6_amended :
    (∀ r1 p1 t1 s1 r2 p2 t2 s2 : String,
      r1 ++ p1 ++ t1 ++ s1 = r2 ++ p2 ++ t2 ++ s2 →
      commit r1 p1 t1 s1 = commit r2 p2 t2 s2) ∧
    (∃ a b p t s : String, a ≠ b ∧ commit a p t s = commit b p t s) := by
  constructor
  · intro r1 p1 t1 s1 r2 p2 t2 s2 h
    unfold commit
    rw [h]
  · exact ⟨"Aa", "BB", "x", "y", "z", by decide, by decide⟩

/-- Witness for C6: the determinism half of `c6_amended` applied at concrete
inputs with equal concatenations. -/
theorem c6_amended_witness : commit "ab" "cd" "e" "f" = commit "a" "bcd" "ef" "" :=
  c6_amended.1 "ab" "cd" "e" "f" "a" "bcd" "ef" "" rfl

/-! ## Draw engine: refinement against the spec's description -/

theorem determinePrizeAux_eq_find (prizes : List (String × ℚ)) :
    ∀ c r2 : ℚ, determinePrizeAux prizes c r2 =
      ((cumulativeFrom c prizes).find? (fun pr => decide (r2 < pr.2))).map Prod.fst := by
  induction prizes with
  | nil => intro c r2; rfl
  | cons hd rest ih =>
    intro c r2
    obtain ⟨p, pct⟩ := hd
    unfold determinePrizeAux cumulativeFrom
    by_cases h : r2 < c + pct
    · rw [if_pos h, List.find?_cons_of_pos _ (by simpa using h)]
      rfl
    · rw [if_neg h, List.find?_cons_of_neg _ (by simpa using h)]
      exact ih (c + pct) r2

/-- C5: the outcome is WIN exactly when the first draw is below the win
percentage; and the selected prize equals the first tier, in configured
order, whose cumulative share exceeds the second draw, falling back to the
first configured tier when no cumulative share exceeds it. -/
theorem c5_draw_engine (r r2 : ℚ) (prizes : List (String × ℚ)) :
    (isWinDraw r = true ↔ r < WIN_PERCENTAGE) ∧
    determinePrize prizes r2 =
      (specFirstTierExceeding prizes r2).elim (prizes.head?.map Prod.fst) some := by
  constructor
  · unfold isWinDraw
    exact decide_eq_true_iff
  · unfold determinePrize specFirstTierExceeding
    rw [determinePrizeAux_eq_find]
    cases h : (cumulativeFrom 0 prizes).find? (fun pr => decide (r2 < pr.2)) <;> simp [h]

/-! ## Parser: uniqueId derivation (C3) -/

/-- C3 counterexample: a signed-URL receipt whose query carries no `rcpt`
parameter parses as valid, yet `getUniqueId` returns `null` — refuting "if
parse returns a valid ParsedReceipt then getUniqueId returns a non-null
value". -/
theorem c3_counterexample :
    (QRParser.parse v2NoRcpt).valid = true ∧
    QRParser.getUniqueId (QRParser.parse v2NoRcpt) = .val none := by
  decide

/-- C3 amended: a valid v2 parse yields the `rcpt` query parameter as
uniqueId — which is `null` exactly when the parameter is absent; a valid v1
parse yields the full token; a string matching neither grammar is invalid
and yields no uniqueId. -/
theorem c3_amended (s : String) :
    (QRParser.isV2Format s = true →
      (QRParser.parse s).valid = true ∧
      QRParser.getUniqueId (QRParser.parse s) =
        .val (QRParser.getParam (QRParser.queryPairs s) "rcpt")) ∧
    (QRParser.isV2Format s = false → QRParser.isV1Format s = true →
      (QRParser.parse s).valid = true ∧
      QRParser.getUniqueId (QRParser.parse s) = .val (some s)) ∧
    (QRParser.isV2Format s = false → QRParser.isV1Format s = false →
      (QRParser.parse s).valid = false ∧
      QRParser.getUniqueId (QRParser.parse s) = .val none) := by
  refine ⟨fun h2 => ?_, fun h2 h1 => ?_, fun h2 h1 => ?_⟩
  · simp [QRParser.parse, QRParser.parseWith, QRParser.getUniqueId,
      QRParser.parseV2URLModel, h2]
  · simp [QRParser.parse, QRParser.parseWith, QRParser.getUniqueId,
      QRParser.parseV2URLModel, h2, h1]
  · simp [QRParser.parse, QRParser.parseWith, QRParser.getUniqueId,
      QRParser.parseV2URLModel, h2, h1]

/-- Witness for C3 amended: the three branches at concrete receipt codes. -/
theorem c3_amended_witness :
    QRParser.getUniqueId (QRParser.parse v2Sample) =
      .val (QRParser.getParam (QRParser.queryPairs v2Sample) "rcpt") ∧
    QRParser.getUniqueId (QRParser.parse c1Code) = .val (some c1Code) ∧
    (QRParser.parse "hello").valid = false :=
  ⟨((c3_amended v2Sample).1 (by decide)).2,
   ((c3_amended c1Code).2.1 (by decide) (by decide)).2,
   ((c3_amended "hello").2.2 (by decide) (by decide)).1⟩

/-! ## Redemption transaction: rate limiting (C8), error atomicity (C9),
duplicate handling (C1) and parse-step validation (C2) -/

theorem scanHistoryIncludes_false (history : List ScanEntry) (q : String) :
    scanHistoryIncludes history q = false := by
  unfold scanHistoryIncludes
  simp

/-- C8: a redemption attempt with a well-formed code fails with the
rate-limit error (whose message states the configured limit) exactly when
the participant's count of scans inside the trailing 60-minute window has
reached `MAX_SCANS_PER_HOUR`; with fewer in-window scans (the oldest having
aged out of the window) the attempt is not rate-limited. -/
theorem c8_rate_limit (dateMs : String → Int) (nowMs : Int)
    (qrCode phone timestamp : String) (r r2 : ℚ) (randomSeed : String) (st : DemoState)
    (hv : graVatPattern qrCode = true) :
    (getRecentScans dateMs nowMs phone st ≥ MAX_SCANS_PER_HOUR →
      (demoScan dateMs nowMs qrCode phone timestamp r r2 randomSeed st).1 =
        ScanResult.failure "Rate limited" rateLimitMsg) ∧
    (getRecentScans dateMs nowMs phone st < MAX_SCANS_PER_HOUR →
      isRateLimitedResult
        (demoScan dateMs nowMs qrCode phone timestamp r r2 randomSeed st).1 = false) := by
  have h1 : ¬((!graVatPattern qrCode) = true) := by simp [hv]
  have h2 : ¬(scanHistoryIncludes st.scanHistory qrCode = true) := by
    simp [scanHistoryIncludes_false]
  constructor
  · intro h3
    simp only [demoScan, if_neg h1, if_neg h2, if_pos h3]
  · intro h3
    have h3' : ¬(getRecentScans dateMs nowMs phone st ≥ MAX_SCANS_PER_HOUR) :=
      Nat.not_le.mpr h3
    simp only [demoScan, if_neg h1, if_neg h2, if_neg h3']
    rfl

/-- Witness for C8: with ten in-window scans the eleventh attempt is
rate-limited with the message stating the limit of 10; with nine it is not. -/
theorem c8_rate_limit_witness :
    (demoScan dZero 0 c1Code "0241234567" "t" 50 0 "s" (rlState 10)).1 =
      ScanResult.failure "Rate limited" rateLimitMsg ∧
    isRateLimitedResult
      (demoScan dZero 0 c1Code "0241234567" "t" 50 0 "s" (rlState 9)).1 = false ∧
    rateLimitMsg = "You\x27ve reached the limit of 10 scans per hour. Try again later!" :=
  ⟨(c8_rate_limit dZero 0 c1Code "0241234567" "t" 50 0 "s" (rlState 10)
      (by decide)).1 (by decide),
   (c8_rate_limit dZero 0 c1Code "0241234567" "t" 50 0 "s" (rlState 9)
      (by decide)).2 (by decide),
   by decide⟩

/-- C9: whenever the redemption transaction returns an error outcome, the
store is left exactly as it was — no history entry, scanned code, audit-log
entry or leaderboard aggregate is written. -/
theorem c9_error_leaves_state_unchanged (dateMs : String → Int) (nowMs : Int)
    (qrCode phone timestamp : String) (r r2 : ℚ) (randomSeed : String) (st : DemoState)
    (h : isFailureResult
      (demoScan dateMs nowMs qrCode phone timestamp r r2 randomSeed st).1 = true) :
    (demoScan dateMs nowMs qrCode phone timestamp r r2 randomSeed st).2 = st := by
  by_cases h1 : (!graVatPattern qrCode) = true
  · simp only [demoScan, if_pos h1]
  · by_cases h2 : scanHistoryIncludes st.scanHistory qrCode = true
    · simp only [demoScan, if_neg h1, if_pos h2]
    · by_cases h3 : getRecentScans dateMs nowMs phone st ≥ MAX_SCANS_PER_HOUR
      · simp only [demoScan, if_neg h1, if_neg h2, if_pos h3]
      · exfalso
        simp only [demoScan, if_neg h1, if_neg h2, if_neg h3, isFailureResult] at h
        exact Bool.false_ne_true h

/-- Witness for C9: an invalid receipt code leaves the fresh store
untouched. -/
theorem c9_witness :
    (demoScan dZero 0 "notacode" "0241234567" "t" 50 0 "s" emptyState).2 = emptyState :=
  c9_error_leaves_state_unchanged dZero 0 "notacode" "0241234567" "t" 50 0 "s" emptyState
    (by decide)

/-- C1 (code bug): after a successful redemption of a receipt code, a second
`_demoScan` of the very same code is *not* rejected as a duplicate — the
check `scanHistory.includes(qrCode)` compares the string against entry
objects and never fires — so the second call succeeds and a second
redemption entry for the same uniqueId is recorded. -/
theorem c1_duplicate_scan_succeeds :
    isDuplicateResult
      (demoScan dZero 0 c1Code "0241234567" "2024-01-01T00:05:00.000Z" 50 0 "seed2"
        c1State1).1 = false ∧
    isFailureResult
      (demoScan dZero 0 c1Code "0241234567" "2024-01-01T00:05:00.000Z" 50 0 "seed2"
        c1State1).1 = false ∧
    ((demoScan dZero 0 c1Code "0241234567" "2024-01-01T00:05:00.000Z" 50 0 "seed2"
        c1State1).2.scanHistory.filter (fun e => e.qrCode == c1Code)).length = 2 := by
  decide

/-- C2 (code bug): a well-formed signed-URL receipt is accepted by the §4.1
parser (`QRParser.parse` returns `valid = true` with a uniqueId), yet the
redemption transaction rejects it at the parse/validation step with the
invalid-format error, because `_demoScan` validates against the legacy
v1-only `CONFIG.QR_PATTERN`. -/
theorem c2_valid_v2_rejected :
    (QRParser.parse v2Sample).valid = true ∧
    QRParser.getUniqueId (QRParser.parse v2Sample) = .val (some "AAAA-BBBB-CCCCC") ∧
    (demoScan dZero 0 v2Sample "0241234567" "t" 50 0 "s" emptyState).1 =
      ScanResult.failure "Invalid QR code format" invalidFormatMsg := by
  decide

/-! ## Leaderboard: demo-user seeding (C10) -/

theorem foldl_push_mono (l : List LBEntry) :
    ∀ (acc : List LBEntry) (x : LBEntry), x ∈ acc →
      x ∈ l.foldl
        (fun acc u => if acc.any (fun v => v.phone == u.phone) then acc else acc ++ [u])
        acc := by
  induction l with
  | nil => intro acc x hx; simpa using hx
  | cons u rest ih =>
    intro acc x hx
    simp only [List.foldl_cons]
    apply ih
    by_cases h : acc.any (fun v => v.phone == u.phone) = true
    · rw [if_pos h]; exact hx
    · rw [if_neg h]; exact List.mem_append_left _ hx

theorem foldl_push_mem_phone (l : List LBEntry) :
    ∀ (acc : List LBEntry) (u : LBEntry), u ∈ l →
      ∃ v ∈ l.foldl
        (fun acc u => if acc.any (fun v => v.phone == u.phone) then acc else acc ++ [u])
        acc, v.phone = u.phone := by
  induction l with
  | nil => intro acc u h; cases h
  | cons w rest ih =>
    intro acc u hu
    simp only [List.foldl_cons]
    rcases List.mem_cons.mp hu with rfl | h
    · by_cases h : acc.any (fun v => v.phone == u.phone) = true
      · obtain ⟨v, hv, hvp⟩ := List.any_eq_true.mp h
        refine ⟨v, foldl_push_mono rest _ v ?_, by simpa using hvp⟩
        rw [if_pos h]; exact hv
      · refine ⟨u, foldl_push_mono rest _ u ?_, rfl⟩
        rw [if_neg h]; exact List.mem_append_right _ (by simp)
    · exact ih _ u h

theorem foldl_push_fresh (l : List LBEntry) :
    ∀ (acc : List LBEntry) (u : LBEntry), u ∈ l →
      (∀ v ∈ acc, v.phone ≠ u.phone) → (l.map LBEntry.phone).Nodup →
      u ∈ l.foldl
        (fun acc u => if acc.any (fun v => v.phone == u.phone) then acc else acc ++ [u])
        acc := by
  induction l with
  | nil => intro acc u h; cases h
  | cons w rest ih =>
    intro acc u hu hacc hnd
    rw [List.map_cons, List.nodup_cons] at hnd
    obtain ⟨hw_not, hnd'⟩ := hnd
    simp only [List.foldl_cons]
    rcases List.mem_cons.mp hu with rfl | h
    · have hany : ¬(acc.any (fun v => v.phone == u.phone) = true) := by
        simp only [List.any_eq_true, not_exists]
        intro v hv
        exact (hacc v hv.1) (by simpa using hv.2)
      apply foldl_push_mono
      rw [if_neg hany]
      exact List.mem_append_right _ (by simp)
    · have hwp : w.phone ≠ u.phone := by
        intro hq
        exact hw_not (hq ▸ List.mem_map_of_mem LBEntry.phone h)
      apply ih _ u h ?_ hnd'
      intro v hv
      by_cases hw : acc.any (fun x => x.phone == w.phone) = true
      · rw [if_pos hw] at hv
        exact hacc v hv
      · rw [if_neg hw] at hv
        rcases List.mem_append.mp hv with h1 | h1
        · exact hacc v h1
        · have : v = w := by simpa using h1
          subst this
          exact hwp

theorem setStats_mem_phone (p : String) (a b : Nat) :
    ∀ (l : List LBEntry) (v : LBEntry), v ∈ l →
      ∃ w ∈ setStats p a b l, w.phone = v.phone := by
  intro l
  induction l with
  | nil => intro v hv; cases hv
  | cons u rest ih =>
    intro v hv
    unfold setStats
    rcases List.mem_cons.mp hv with rfl | h
    · by_cases hq : (v.phone == p) = true
      · rw [if_pos hq]
        exact ⟨_, List.mem_cons_self _ _, rfl⟩
      · rw [if_neg hq]
        exact ⟨v, List.mem_cons_self _ _, rfl⟩
    · by_cases hq : (u.phone == p) = true
      · rw [if_pos hq]
        exact ⟨v, List.mem_cons_of_mem _ h, rfl⟩
      · rw [if_neg hq]
        obtain ⟨w, hw, hwp⟩ := ih v h
        exact ⟨w, List.mem_cons_of_mem _ hw, hwp⟩

theorem setStats_mem_of_ne (p : String) (a b : Nat) :
    ∀ (l : List LBEntry) (v : LBEntry), v ∈ l → v.phone ≠ p →
      v ∈ setStats p a b l := by
  intro l
  induction l with
  | nil => intro v hv; cases hv
  | cons u rest ih =>
    intro v hv hne
    unfold setStats
    rcases List.mem_cons.mp hv with rfl | h
    · have hq : ¬((v.phone == p) = true) := by simpa using hne
      rw [if_neg hq]
      exact List.mem_cons_self _ _
    · by_cases hq : (u.phone == p) = true
      · rw [if_pos hq]
        exact List.mem_cons_of_mem _ h
      · rw [if_neg hq]
        exact List.mem_cons_of_mem _ (ih v h hne)

theorem setStats_length (p : String) (a b : Nat) :
    ∀ l : List LBEntry, (setStats p a b l).length = l.length := by
  intro l
  induction l with
  | nil => rfl
  | cons u rest ih =>
    unfold setStats
    by_cases hq : (u.phone == p) = true
    · rw [if_pos hq]; simp
    · rw [if_neg hq]; simp [ih]

theorem insertByScans_mem (u v : LBEntry) :
    ∀ l : List LBEntry, (v ∈ insertByScans u l ↔ v = u ∨ v ∈ l) := by
  intro l
  induction l with
  | nil => simp [insertByScans]
  | cons w rest ih =>
    unfold insertByScans
    by_cases hq : w.scans < u.scans
    · rw [if_pos hq]
      simp
    · rw [if_neg hq]
      simp only [List.mem_cons, ih]
      tauto

theorem insertByScans_length (u : LBEntry) :
    ∀ l : List LBEntry, (insertByScans u l).length = l.length + 1 := by
  intro l
  induction l with
  | nil => rfl
  | cons w rest ih =>
    unfold insertByScans
    by_cases hq : w.scans < u.scans
    · rw [if_pos hq]; simp
    · rw [if_neg hq]; simp [ih]

theorem foldl_insert_mem (v : LBEntry) :
    ∀ (l acc : List LBEntry),
      (v ∈ l.foldl (fun acc u => insertByScans u acc) acc ↔ v ∈ acc ∨ v ∈ l) := by
  intro l
  induction l with
  | nil => intro acc; simp
  | cons u rest ih =>
    intro acc
    simp only [List.foldl_cons, ih, insertByScans_mem, List.mem_cons]
    tauto

theorem sortByScansDesc_mem (v : LBEntry) (l : List LBEntry) :
    v ∈ sortByScansDesc l ↔ v ∈ l := by
  unfold sortByScansDesc
  simp [foldl_insert_mem]

theorem foldl_insert_length :
    ∀ (l acc : List LBEntry),
      (l.foldl (fun acc u => insertByScans u acc) acc).length = acc.length + l.length := by
  intro l
  induction l with
  | nil => intro acc; simp
  | cons u rest ih =>
    intro acc
    simp only [List.foldl_cons, ih, insertByScans_length, List.length_cons]
    omega

theorem sortByScansDesc_length (l : List LBEntry) :
    (sortByScansDesc l).length = l.length := by
  unfold sortByScansDesc
  rw [foldl_insert_length]
  simp

theorem foldl_push_length_le :
    ∀ (l acc : List LBEntry),
      (l.foldl
        (fun acc u => if acc.any (fun v => v.phone == u.phone) then acc else acc ++ [u])
        acc).length ≤ acc.length + l.length := by
  intro l
  induction l with
  | nil => intro acc; simp
  | cons u rest ih =>
    intro acc
    simp only [List.foldl_cons, List.length_cons]
    refine le_trans (ih _) ?_
    have hstep :
        (if acc.any (fun v => v.phone == u.phone) then acc else acc ++ [u]).length ≤
          acc.length + 1 := by
      by_cases h : acc.any (fun v => v.phone == u.phone) = true
      · rw [if_pos h]; omega
      · rw [if_neg h]; simp
    omega

theorem addDemoUsers_length_le (lb : List LBEntry) :
    (addDemoUsers lb).length ≤ lb.length + 5 := by
  unfold addDemoUsers
  simpa using foldl_push_length_le demoUsers lb

theorem rankEntries_mem_phone :
    ∀ (l : List LBEntry) (i : Nat) (v : LBEntry), v ∈ l →
      ∃ e ∈ rankEntries i l, e.phone = v.phone ∧ e.scans = v.scans ∧ e.wins = v.wins := by
  intro l
  induction l with
  | nil => intro i v hv; cases hv
  | cons u rest ih =>
    intro i v hv
    rcases List.mem_cons.mp hv with rfl | h
    · refine ⟨⟨i + 1, maskPhone v.phone, v.phone, v.scans, v.wins, getBadge v.scans⟩,
        ?_, rfl, rfl, rfl⟩
      simp [rankEntries]
    · obtain ⟨e, he, hep⟩ := ih (i + 1) v h
      exact ⟨e, by simp [rankEntries, he], hep⟩

/-- The take-sort-format tail of `_demoLeaderboard`: any board entry of a
board with at most ten entries survives into the formatted top-ten list. -/
theorem formatted_mem (lb2 : List LBEntry) (hlen : lb2.length ≤ 10) (w : LBEntry)
    (hw : w ∈ lb2) :
    ∃ e ∈ rankEntries 0 ((sortByScansDesc lb2).take 10),
      e.phone = w.phone ∧ e.scans = w.scans ∧ e.wins = w.wins := by
  have htake : (sortByScansDesc lb2).take 10 = sortByScansDesc lb2 :=
    List.take_of_length_le (by rw [sortByScansDesc_length]; exact hlen)
  rw [htake]
  exact rankEntries_mem_phone _ 0 w ((sortByScansDesc_mem w lb2).mpr hw)

/-- C10: whenever the stored leaderboard has fewer than five participants,
every one of the five hard-coded demo participants appears in the returned
ranking; and any demo participant whose phone is neither already stored nor
the querying user's appears with the hard-coded scan and win counts — so
participants for whom no redemption entry exists show up in the standings. -/
theorem c10_demo_leaderboard (phone : String) (st : DemoState)
    (h : st.leaderboard.length < 5) :
    (∀ u ∈ demoUsers, ∃ e ∈ (demoLeaderboard phone st).leaderboard,
      e.phone = u.phone) ∧
    (∀ u ∈ demoUsers, (∀ v ∈ st.leaderboard, v.phone ≠ u.phone) → u.phone ≠ phone →
      ∃ e ∈ (demoLeaderboard phone st).leaderboard,
        e.phone = u.phone ∧ e.scans = u.scans ∧ e.wins = u.wins) := by
  have hlb1 : (addDemoUsers st.leaderboard).length ≤ 9 := by
    have := addDemoUsers_length_le st.leaderboard
    omega
  by_cases hany : (addDemoUsers st.leaderboard).any (fun u => u.phone == phone) = true
  · have hboard : (demoLeaderboard phone st).leaderboard =
        rankEntries 0 ((sortByScansDesc (setStats phone (getUserStats phone st).1
          (getUserStats phone st).2 (addDemoUsers st.leaderboard))).take 10) := by
      simp only [demoLeaderboard, if_pos h, if_pos hany]
    have hlen : (setStats phone (getUserStats phone st).1 (getUserStats phone st).2
        (addDemoUsers st.leaderboard)).length ≤ 10 := by
      rw [setStats_length]
      omega
    constructor
    · intro u hu
      obtain ⟨v1, hv1, hv1p⟩ := foldl_push_mem_phone demoUsers st.leaderboard u hu
      obtain ⟨w, hw, hwp⟩ :=
        setStats_mem_phone phone (getUserStats phone st).1 (getUserStats phone st).2
          (addDemoUsers st.leaderboard) v1 hv1
      obtain ⟨e, he, hep⟩ := formatted_mem _ hlen w hw
      rw [hboard]
      exact ⟨e, he, by rw [hep.1, hwp, hv1p]⟩
    · intro u hu hfresh hneq
      have hu1 : u ∈ addDemoUsers st.leaderboard :=
        foldl_push_fresh demoUsers st.leaderboard u hu hfresh (by decide)
      have hu2 := setStats_mem_of_ne phone (getUserStats phone st).1
        (getUserStats phone st).2 (addDemoUsers st.leaderboard) u hu1 hneq
      obtain ⟨e, he, hep⟩ := formatted_mem _ hlen u hu2
      rw [hboard]
      exact ⟨e, he, hep⟩
  · by_cases hpos : (getUserStats phone st).1 > 0
    · have hboard : (demoLeaderboard phone st).leaderboard =
          rankEntries 0 ((sortByScansDesc (addDemoUsers st.leaderboard ++
            [⟨phone, (getUserStats phone st).1, (getUserStats phone st).2⟩])).take 10) := by
        simp only [demoLeaderboard, if_pos h, if_neg hany, if_pos hpos]
      have hlen : (addDemoUsers st.leaderboard ++
          [(⟨phone, (getUserStats phone st).1, (getUserStats phone st).2⟩ : LBEntry)]).length
            ≤ 10 := by
        rw [List.length_append]
        simp only [List.length_singleton]
        omega
      constructor
      · intro u hu
        obtain ⟨v1, hv1, hv1p⟩ := foldl_push_mem_phone demoUsers st.leaderboard u hu
        obtain ⟨e, he, hep⟩ := formatted_mem _ hlen v1 (List.mem_append_left _ hv1)
        rw [hboard]
        exact ⟨e, he, by rw [hep.1, hv1p]⟩
      · intro u hu hfresh hneq
        have hu1 : u ∈ addDemoUsers st.leaderboard :=
          foldl_push_fresh demoUsers st.leaderboard u hu hfresh (by decide)
        obtain ⟨e, he, hep⟩ := formatted_mem _ hlen u (List.mem_append_left _ hu1)
        rw [hboard]
        exact ⟨e, he, hep⟩
    · have hboard : (demoLeaderboard phone st).leaderboard =
          rankEntries 0 ((sortByScansDesc (addDemoUsers st.leaderboard)).take 10) := by
        simp only [demoLeaderboard, if_pos h, if_neg hany, if_neg hpos]
      have hlen : (addDemoUsers st.leaderboard).length ≤ 10 := by omega
      constructor
      · intro u hu
        obtain ⟨v1, hv1, hv1p⟩ := foldl_push_mem_phone demoUsers st.leaderboard u hu
        obtain ⟨e, he, hep⟩ := formatted_mem _ hlen v1 hv1
        rw [hboard]
        exact ⟨e, he, by rw [hep.1, hv1p]⟩
      · intro u hu hfresh hneq
        have hu1 : u ∈ addDemoUsers st.leaderboard :=
          foldl_push_fresh demoUsers st.leaderboard u hu hfresh (by decide)
        obtain ⟨e, he, hep⟩ := formatted_mem _ hlen u hu1
        rw [hboard]
        exact ⟨e, he, hep⟩

/-- Witness for C10: on a fresh store queried by a participant who is not a
demo user, the first demo participant appears in the output with its
hard-coded 45 scans and 5 wins. -/
theorem c10_witness :
    ∃ e ∈ (demoLeaderboard "0550000000" emptyState).leaderboard,
      e.phone = "0241234567" ∧ e.scans = 45 ∧ e.wins = 5 :=
  (c10_demo_leaderboard "0550000000" emptyState (by decide)).2
    (⟨"0241234567", 45, 5⟩ : LBEntry) (by decide) (by decide) (by decide)
